import Mathlib

/-!
Shallow embedding of the field-parsing and uncertainty-scoring pipeline of the
OCR_platform repository (src/core/parsers.py and src/core/ocr_engine.py).

Conventions of the embedding:
* Python strings are Lean `String`s; character-level operations work on `List Char`.
* Python's `re` character classes are modelled on the character sets the source
  actually exercises: `\d` is the ASCII digit class, `\s` is the ASCII whitespace
  class (space, tab, LF, VT, FF, CR), `\w` is ASCII alphanumerics, underscore and
  the Cyrillic block U+0400..U+04FF.  `str.lower`/`str.upper` are modelled on
  ASCII and the Cyrillic block likewise.
* The three fallback regexes, the date regex and the diploma regex are sequences
  of greedily-quantified character classes; `reSearch` below implements Python's
  leftmost search with full backtracking for exactly that pattern shape.
* A Python value that a parser may return is a `PyVal`; a parser that may raise
  is a function into `Option PyVal` (`none` = an exception was raised).
-/

/-- Python `\s` on the inputs in scope: space, TAB, LF, VT, FF, CR. -/
def isSpaceChar (c : Char) : Bool :=
  c.val = 32 || c.val = 9 || c.val = 10 || c.val = 11 || c.val = 12 || c.val = 13

/-- Python `\w` restricted to ASCII alphanumerics, underscore and the Cyrillic
block U+0400..U+04FF (the letters the parsers actually see). -/
def isWordCharPy (c : Char) : Bool :=
  c.isAlphanum || c = '_' || (0x400 ≤ c.val && c.val ≤ 0x4FF)

/-- `str.lower` on ASCII letters and the Cyrillic letters А..Я and Ё. -/
def rusLowerChar (c : Char) : Char :=
  if 0x410 ≤ c.val && c.val ≤ 0x42F then Char.ofNat (c.toNat + 0x20)
  else if c.val = 0x401 then Char.ofNat 0x451
  else c.toLower

/-- `str.upper` on ASCII letters and the Cyrillic letters а..я and ё. -/
def rusUpperChar (c : Char) : Char :=
  if 0x430 ≤ c.val && c.val ≤ 0x44F then Char.ofNat (c.toNat - 0x20)
  else if c.val = 0x451 then Char.ofNat 0x401
  else c.toUpper

/-- `str.upper` lifted to strings. -/
def rusUpper (s : String) : String :=
  String.mk (s.data.map rusUpperChar)

/-- `str.strip()`: drop leading and trailing whitespace. -/
def pyStrip (s : String) : String :=
  String.mk (((s.data.dropWhile isSpaceChar).reverse.dropWhile isSpaceChar).reverse)

/-- `''.join(re.findall(r'\d', text))` as a character list: the digit characters
of `text` in order. -/
def digitsIn (text : String) : List Char :=
  text.data.filter Char.isDigit

/-- `int()` on a string of decimal digits. -/
def natOfDigits (l : List Char) : Nat :=
  l.foldl (fun n c => 10 * n + (c.toNat - 48)) 0

/-- The decimal digit character for `n` (callers always pass `_ % 10`). -/
def digitCharOf (n : Nat) : Char :=
  match n with
  | 0 => '0' | 1 => '1' | 2 => '2' | 3 => '3' | 4 => '4'
  | 5 => '5' | 6 => '6' | 7 => '7' | 8 => '8' | 9 => '9'
  | _ => '0'

/-- `str.zfill(5)` on a digit list of length at most 5. -/
def zfill5 (l : List Char) : List Char :=
  List.replicate (5 - l.length) '0' ++ l

/-- Python `pat in s` (substring test) on character lists. -/
def containsSub (pat : List Char) : List Char → Bool
  | [] => pat.isEmpty
  | c :: rest => pat.isPrefixOf (c :: rest) || containsSub pat rest

/-- Worker for `replaceAll`: while `skip > 0` we are inside an already-replaced
occurrence and only consume characters. -/
def replaceAllGo (pat repl : List Char) : Nat → List Char → List Char
  | _, [] => []
  | 0, c :: rest =>
    if pat.isPrefixOf (c :: rest) then repl ++ replaceAllGo pat repl (pat.length - 1) rest
    else c :: replaceAllGo pat repl 0 rest
  | skip + 1, _ :: rest => replaceAllGo pat repl skip rest

/-- Python `s.replace(pat, repl)` for nonempty `pat`: replace every leftmost
non-overlapping occurrence. -/
def replaceAll (pat repl s : List Char) : List Char :=
  replaceAllGo pat repl 0 s

/-- One quantified character class `cls{lo,hi}` of a regex (`hi = none` = unbounded);
all quantifiers in the source patterns are greedy. -/
structure Atom where
  cls : Char → Bool
  lo : Nat
  hi : Option Nat

/-- Try consuming `k` characters for the current atom, for `k` from the given
start down to `lo` (greedy matching with backtracking). -/
def tryLens (lo : Nat) (f : Nat → Option α) : Nat → Option α
  | 0 => if lo = 0 then f 0 else none
  | k + 1 =>
    if k + 1 < lo then none
    else
      match f (k + 1) with
      | some a => some a
      | none => tryLens lo f k

/-- Match a sequence of quantified character classes at the start of `s`,
returning the characters consumed by each atom.  Trailing input is ignored,
as for an unanchored Python pattern. -/
def matchAtoms : List Atom → List Char → Option (List (List Char))
  | [], _ => some []
  | a :: rest, s =>
    let run := (s.takeWhile a.cls).length
    let top := match a.hi with | none => run | some h => min h run
    tryLens a.lo (fun k => (matchAtoms rest (s.drop k)).map (fun caps => s.take k :: caps)) top

/-- Python `re.search`: try `matchAtoms` at every position, leftmost first. -/
def reSearch : List Atom → List Char → Option (List (List Char))
  | atoms, s =>
    match matchAtoms atoms s with
    | some c => some c
    | none =>
      match s with
      | [] => none
      | _ :: rest => reSearch atoms rest

/-- Worker for `resplit`; `prevSep` records whether the previous character was a
separator (runs of separators yield a single split). -/
def resplitGo (p : Char → Bool) : List Char → List Char → Bool → List (List Char)
  | [], acc, _ => [acc.reverse]
  | c :: rest, acc, prevSep =>
    if p c then
      if prevSep then resplitGo p rest [] true
      else acc.reverse :: resplitGo p rest [] true
    else resplitGo p rest (c :: acc) false

/-- Python `re.split` on a one-class-plus pattern such as `[\s\-]+`: split on
maximal runs of separator characters, keeping empty boundary pieces. -/
def resplit (p : Char → Bool) (l : List Char) : List (List Char) :=
  resplitGo p l [] false

/-- A Python value as far as the pipeline inspects one: strings, booleans,
integers and tuples. -/
inductive PyVal where
  | pstr : String → PyVal
  | pbool : Bool → PyVal
  | pint : Int → PyVal
  | ptuple : List PyVal → PyVal

mutual

/-- Python `repr` on a `PyVal` (string escaping is not modelled; no theorem
evaluates `repr` on a string containing a quote). -/
def pyRepr : PyVal → String
  | .pstr s => String.singleton (Char.ofNat 39) ++ s ++ String.singleton (Char.ofNat 39)
  | .pbool b => if b then "True" else "False"
  | .pint n => toString n
  | .ptuple l => "(" ++ pyReprJoin l ++ (if l.length = 1 then ",)" else ")")

/-- Comma-separated `repr`s of the elements of a tuple. -/
def pyReprJoin : List PyVal → String
  | [] => ""
  | [v] => pyRepr v
  | v :: w :: rest => pyRepr v ++ ", " ++ pyReprJoin (w :: rest)

end

/-- Python `str` on a `PyVal`: the string itself for strings, `repr` otherwise. -/
def pyStr : PyVal → String
  | .pstr s => s
  | v => pyRepr v

/-- Python truthiness of a `PyVal`. -/
def pyTruthy : PyVal → Bool
  | .pstr s => decide (s ≠ "")
  | .pbool b => b
  | .pint n => decide (n ≠ 0)
  | .ptuple l => !l.isEmpty

/-- A configured parser: it may raise (`none`) or return any Python value. -/
def PyParser : Type := String → Option PyVal

/-- `datetime` leap-year rule (proleptic Gregorian). -/
def isLeapYear (y : Nat) : Bool :=
  y % 4 = 0 && (y % 100 ≠ 0 || y % 400 = 0)

/-- Days in a month, as `datetime` accepts them. -/
def daysInMonth (y m : Nat) : Nat :=
  if m = 2 then (if isLeapYear y then 29 else 28)
  else if m = 4 || m = 6 || m = 9 || m = 11 then 30
  else 31

/-- `datetime(year, month, day)` succeeds exactly on these arguments
(`datetime.MINYEAR = 1`, `datetime.MAXYEAR = 9999`). -/
def isValidDate (y m d : Nat) : Bool :=
  1 ≤ y && y ≤ 9999 && 1 ≤ m && m ≤ 12 && 1 ≤ d && d ≤ daysInMonth y m

/-- `date(y, m, d).isoformat()`, i.e. `%04d-%02d-%02d` for the in-range
arguments `datetime` accepts (y ≤ 9999, m ≤ 12, d ≤ 31). -/
def isoFormat (y m d : Nat) : String :=
  String.mk [digitCharOf (y / 1000 % 10), digitCharOf (y / 100 % 10),
             digitCharOf (y / 10 % 10), digitCharOf (y % 10), '-',
             digitCharOf (m / 10 % 10), digitCharOf (m % 10), '-',
             digitCharOf (d / 10 % 10), digitCharOf (d % 10)]

/-- The month-name table of `parse_date_standard` (values as numbers; the source
stores two-digit strings and converts with `int`). -/
def monthsTable : List (String × Nat) :=
  [("января", 1), ("февраля", 2), ("марта", 3), ("апреля", 4),
   ("мая", 5), ("июня", 6), ("июля", 7), ("августа", 8),
   ("сентября", 9), ("октября", 10), ("ноября", 11), ("декабря", 12)]

/-- `months.get(month_str.lower())`. -/
def monthsFind (s : String) : Option Nat :=
  (monthsTable.find? (fun p => p.1 = s)).map (fun p => p.2)

/-- The pattern `(\d{1,2})\s+(\w+)\s+(\d{4})` of `parse_date_standard`
(`re.IGNORECASE` does not affect these classes).  Captured groups are the
atoms at indices 0, 2 and 4. -/
def datePat : List Atom :=
  [⟨Char.isDigit, 1, some 2⟩, ⟨isSpaceChar, 1, none⟩, ⟨isWordCharPy, 1, none⟩,
   ⟨isSpaceChar, 1, none⟩, ⟨Char.isDigit, 4, some 4⟩]

namespace CommonParsers

/-- `CommonParsers.parse_date_standard` from src/core/parsers.py. -/
def parse_date_standard (text : String) : String × Bool :=
  match reSearch datePat text.data with
  | none => (pyStrip text, true)
  | some caps =>
    match monthsFind (String.mk ((caps.getD 2 []).map rusLowerChar)) with
    | none => (pyStrip text, true)
    | some m =>
      if isValidDate (natOfDigits (caps.getD 4 [])) m (natOfDigits (caps.getD 0 [])) then
        (isoFormat (natOfDigits (caps.getD 4 [])) m (natOfDigits (caps.getD 0 [])), false)
      else (pyStrip text, true)

end CommonParsers

namespace RosNouParsers

/-- `RosNouParsers.parse_series_and_number` from src/core/parsers.py. -/
def parse_series_and_number (text : String) : String × String × Bool :=
  let digits := digitsIn text
  if 10 ≤ digits.length then
    let series := String.mk (digits.take 2)
    let number := String.mk (if 12 ≤ digits.length then (digits.drop 2).take 10
                             else (digits.drop 2).take 8)
    let corrected := decide (series = "71") || decide (series = "11") || decide (series = "17")
    let series := if corrected then "77" else series
    (series, number, decide (number.length < 8) || corrected)
  else
    (if 2 ≤ digits.length then String.mk (digits.take 2) else "00",
     if 2 < digits.length then String.mk (digits.drop 2) else "", true)

/-- The OCR-correction table of `parse_reg_number_diploma`, in source order. -/
def ocrCorrections : List (List Char × List Char) :=
  [("БАС".data, "Д".data), ("ВАС".data, "Д".data), ("8АС".data, "Д".data),
   ("АС".data, "Д".data), ("8".data, "Д".data), ("4".data, "Д".data),
   ("0".data, "Д".data)]

/-- One iteration of the correction loop: `if wrong in t: t = t.replace(wrong,
correct); corrections_made = True`. -/
def correctionStep (acc : List Char × Bool) (pr : List Char × List Char) :
    List Char × Bool :=
  if containsSub pr.1 acc.1 then (replaceAll pr.1 pr.2 acc.1, true) else acc

/-- The whole correction loop, applied to the uppercased text. -/
def applyOcrCorrections (t : List Char) : List Char × Bool :=
  ocrCorrections.foldl correctionStep (t, false)

/-- The pattern `(\d{5})-[ДД]` (the class holds U+0414 twice, so it is one
character); the captured group is the atom at index 0. -/
def dipPat : List Atom :=
  [⟨Char.isDigit, 5, some 5⟩, ⟨fun c => c = '-', 1, some 1⟩,
   ⟨fun c => c = 'Д', 1, some 1⟩]

/-- `RosNouParsers.parse_reg_number_diploma` from src/core/parsers.py.  Note
that the failure path extracts digits from the original `text` parameter, not
from the corrected `text_upper`. -/
def parse_reg_number_diploma (text : String) : String × Bool :=
  let corrected := applyOcrCorrections (rusUpper text).data
  match reSearch dipPat corrected.1 with
  | some caps => (String.mk (caps.getD 0 []) ++ "-Д", corrected.2)
  | none =>
    let digits := digitsIn text
    if digits ≠ [] then
      let numberPart := digits.take 5
      let numberPart := if numberPart.length < 5 then zfill5 numberPart else numberPart
      (String.mk numberPart ++ "-Д", true)
    else ("00000-Д", true)

end RosNouParsers

/-- The per-organization threshold record of the `UncertaintyEngine`. -/
structure Thresholds where
  minRegDigits : Nat
  minNameLength : Nat
  minNumberLength : Nat

/-- The `self.thresholds` dictionary of `UncertaintyEngine.__init__`. -/
def thresholdsTable : List (String × Thresholds) :=
  [("1T", ⟨4, 5, 4⟩), ("ROSNOU", ⟨3, 8, 6⟩), ("FINUNIVERSITY", ⟨4, 8, 8⟩)]

/-- `self.thresholds.get(self.organization, {})`. -/
def thresholdsFor (org : String) : Option Thresholds :=
  (thresholdsTable.find? (fun p => p.1 = org)).map (fun p => p.2)

/-- `config.get(key, default)`: the organization's threshold when the
organization is known, else the per-call default. -/
def getThresh (cfg : Option Thresholds) (f : Thresholds → Nat) (d : Nat) : Nat :=
  match cfg with
  | none => d
  | some t => f t

namespace UncertaintyEngine

/-- `UncertaintyEngine.should_flag_uncertainty` from src/core/parsers.py,
with the engine's organization as first argument. -/
def should_flag_uncertainty (org field_name original_text : String)
    (parsed_result : PyVal) (corrections_made : Bool) : Bool :=
  let config := thresholdsFor org
  if corrections_made then true
  else if field_name = "registration_number" then
    decide ((digitsIn original_text).length < getThresh config (fun t => t.minRegDigits) 3)
  else if field_name = "full_name" then
    decide ((pyStrip (pyStr parsed_result)).length < getThresh config (fun t => t.minNameLength) 5)
  else if field_name = "series_and_number" || field_name = "series" || field_name = "number" then
    match parsed_result with
    | .ptuple l =>
      if 2 ≤ l.length then
        decide ((pyStr (l.getD 1 (.pstr ""))).length < getThresh config (fun t => t.minNumberLength) 4)
      else false
    | .pstr s => decide (s.length < getThresh config (fun t => t.minNumberLength) 4)
    | _ => false
  else false

end UncertaintyEngine

/-- Pattern `(\d{2})\s*(\d{6})` of `_parse_series_number_fallback`
(groups at atoms 0 and 2). -/
def fb1Pat : List Atom :=
  [⟨Char.isDigit, 2, some 2⟩, ⟨isSpaceChar, 0, none⟩, ⟨Char.isDigit, 6, some 6⟩]

/-- Pattern `(\d{2})-?\w?\s*(\d{8,10})` of `_parse_series_number_fallback`
(groups at atoms 0 and 4). -/
def fb2Pat : List Atom :=
  [⟨Char.isDigit, 2, some 2⟩, ⟨fun c => c = '-', 0, some 1⟩, ⟨isWordCharPy, 0, some 1⟩,
   ⟨isSpaceChar, 0, none⟩, ⟨Char.isDigit, 8, some 10⟩]

/-- Pattern `(\d{2,4})\s+(\d{8,})` of `_parse_series_number_fallback`
(groups at atoms 0 and 2). -/
def fb3Pat : List Atom :=
  [⟨Char.isDigit, 2, some 4⟩, ⟨isSpaceChar, 1, none⟩, ⟨Char.isDigit, 8, none⟩]

/-- The separator class `[\s\-]` of the final split of
`_parse_series_number_fallback`. -/
def isSepChar (c : Char) : Bool :=
  isSpaceChar c || c = '-'

namespace OCREngine

/-- `OCREngine._parse_series_number_fallback` from src/core/ocr_engine.py. -/
def parse_series_number_fallback (text : String) : String × String :=
  match reSearch fb1Pat text.data with
  | some caps => (String.mk (caps.getD 0 []), String.mk (caps.getD 2 []))
  | none =>
    match reSearch fb2Pat text.data with
    | some caps => (String.mk (caps.getD 0 []), String.mk (caps.getD 4 []))
    | none =>
      match reSearch fb3Pat text.data with
      | some caps => (String.mk (caps.getD 0 []), String.mk (caps.getD 2 []))
      | none =>
        let parts := resplit isSepChar (pyStrip text).data
        if 2 ≤ parts.length then (String.mk (parts.getD 0 []), String.mk (parts.getD 1 []))
        else ("", pyStrip text)

/-- A `DocumentConfig` as the orchestrator reads it.  The field boxes and
`ocr_params` feed only the excluded OCR collaborator, which is abstracted as a
function from field name to raw text (see `processDocumentWithParser`), so
`fields` keeps just the configured field names, in order. -/
structure DocumentConfig where
  name : String
  organization : String
  document_type : String
  fields : List String
  patterns : Option (List (String × PyParser))

/-- `config.patterns and field_name in config.patterns`, then
`config.patterns[field_name]`. -/
def lookupParser (pats : Option (List (String × PyParser))) (f : String) :
    Option PyParser :=
  match pats with
  | none => none
  | some ps => (ps.find? (fun p => p.1 = f)).map (fun p => p.2)

/-- The composite-field entries written when raw text is empty. -/
def emptyCompositeEntries : List (String × PyVal) :=
  [("series", .pstr ""), ("number", .pstr ""),
   ("uncertain_series", .pbool true), ("uncertain_number", .pbool true)]

/-- The entries written by the regex fallback path of the composite field
(parser exception, or no configured parser). -/
def fallbackEntries (raw : String) : List (String × PyVal) :=
  [("series", .pstr (parse_series_number_fallback raw).1),
   ("number", .pstr (parse_series_number_fallback raw).2),
   ("uncertain_series", .pbool true), ("uncertain_number", .pbool true)]

/-- The entries written when the composite parser returned a sized value whose
length is not 3: `series = ""`, `number = raw_text`, both uncertain. -/
def malformedCompositeEntries (raw : String) : List (String × PyVal) :=
  [("series", .pstr ""), ("number", .pstr raw),
   ("uncertain_series", .pbool true), ("uncertain_number", .pbool true)]

/-- The entries written for a well-formed 3-shaped composite result: `series`
and `number` always, the uncertainty pair iff the parser bit is truthy or the
engine flags the `(series, number)` tuple. -/
def compositeOkEntries (org raw : String) (s n u : PyVal) : List (String × PyVal) :=
  [("series", s), ("number", n)] ++
  (if pyTruthy u ||
      UncertaintyEngine.should_flag_uncertainty org "series_and_number" raw
        (.ptuple [s, n]) false then
    [("uncertain_series", .pbool true), ("uncertain_number", .pbool true)]
  else [])

/-- The entries written for a well-formed 2-tuple simple-field result. -/
def simpleOkEntries (org field raw : String) (a b : PyVal) : List (String × PyVal) :=
  [(field, a)] ++
  (if pyTruthy b ||
      UncertaintyEngine.should_flag_uncertainty org field raw a (pyTruthy b) then
    [("uncertain_" ++ field, .pbool true)]
  else [])

/-- The per-field body of `OCREngine.processDocumentWithParser`: the entries
the iteration for `field` adds to `results`.  Shapes of parser results are
dispatched as the source does: in the composite branch `len(parsed_result)` is
taken first (raising `TypeError` — handled like any parser exception — on an
unsized value) and compared with 3, a string of length 3 being unpacked into
its characters like any sequence; in the simple branch the guard is
`isinstance(parsed_result, tuple) and len(parsed_result) == 2`, anything else
being stored as `str(parsed_result)`. -/
def processField (org : String) (pats : Option (List (String × PyParser)))
    (field raw : String) : List (String × PyVal) :=
  if pyStrip raw = "" then
    if field = "series_and_number" then emptyCompositeEntries
    else [(field, .pstr ""), ("uncertain_" ++ field, .pbool true)]
  else if field = "series_and_number" then
    match lookupParser pats field with
    | none => fallbackEntries raw
    | some parser =>
      match parser raw with
      | none => fallbackEntries raw
      | some v =>
        match v with
        | .ptuple l =>
          if l.length = 3 then
            compositeOkEntries org raw (l.getD 0 (.pstr "")) (l.getD 1 (.pstr ""))
              (l.getD 2 (.pstr ""))
          else malformedCompositeEntries raw
        | .pstr s =>
          if s.length = 3 then
            compositeOkEntries org raw (.pstr (String.singleton (s.data.getD 0 ' ')))
              (.pstr (String.singleton (s.data.getD 1 ' ')))
              (.pstr (String.singleton (s.data.getD 2 ' ')))
          else malformedCompositeEntries raw
        | _ => fallbackEntries raw
  else
    match lookupParser pats field with
    | none => [(field, .pstr raw), ("uncertain_" ++ field, .pbool true)]
    | some parser =>
      match parser raw with
      | none => [(field, .pstr raw), ("uncertain_" ++ field, .pbool true)]
      | some v =>
        match v with
        | .ptuple l =>
          if l.length = 2 then
            simpleOkEntries org field raw (l.getD 0 (.pstr "")) (l.getD 1 (.pstr ""))
          else [(field, .pstr (pyStr v)), ("uncertain_" ++ field, .pbool true)]
        | _ => [(field, .pstr (pyStr v)), ("uncertain_" ++ field, .pbool true)]

/-- `OCREngine.processDocumentWithParser` from src/core/ocr_engine.py, with
the OCR collaborator abstracted as `ocr : field name → raw text`.  The Python
`results` dictionary is modelled as an association list to which each field
iteration appends its entries (each iteration writes only keys derived from its
own field name). -/
def processDocumentWithParser (ocr : String → String) (config : DocumentConfig) :
    List (String × PyVal) :=
  config.fields.foldl
    (fun res f => res ++ processField config.organization config.patterns f (ocr f)) []

/-- The result map contains an entry for key `k`. -/
def hasKey (res : List (String × PyVal)) (k : String) : Prop :=
  k ∈ res.map Prod.fst

end OCREngine

/-! ### Helper lemmas -/

theorem mk_data_eq (s : String) : String.mk s.data = s := rfl

theorem dropWhile_space_eq_self (l : List Char)
    (h : ∀ c ∈ l, isSpaceChar c = false) : l.dropWhile isSpaceChar = l := by
  cases l with
  | nil => rfl
  | cons c t => simp [List.dropWhile, h c (by simp)]

theorem pyStrip_eq_self (s : String) (h : ∀ c ∈ s.data, isSpaceChar c = false) :
    pyStrip s = s := by
  unfold pyStrip
  rw [dropWhile_space_eq_self s.data h]
  rw [dropWhile_space_eq_self s.data.reverse (fun c hc => h c (List.mem_reverse.mp hc))]
  rw [List.reverse_reverse, mk_data_eq]

theorem tryLens_none {α : Type} (lo : Nat) (f : Nat → Option α)
    (hf : ∀ j, f j = none) : ∀ k, tryLens lo f k = none := by
  intro k
  induction k with
  | zero => simp [tryLens, hf]
  | succ n ih => simp [tryLens, hf, ih]

theorem matchAtoms_datePat_none (s : List Char)
    (h : ∀ c ∈ s, isSpaceChar c = false) : matchAtoms datePat s = none := by
  rw [show datePat = (⟨Char.isDigit, 1, some 2⟩ : Atom) :: datePat.tail from rfl]
  rw [matchAtoms]
  apply tryLens_none
  intro j
  suffices hs : matchAtoms datePat.tail (s.drop j) = none by rw [hs]; rfl
  have hrun : (s.drop j).takeWhile isSpaceChar = [] := by
    cases hd : s.drop j with
    | nil => rfl
    | cons c t =>
      have hc : c ∈ s := List.mem_of_mem_drop (by rw [hd]; exact List.mem_cons_self c t)
      simp [List.takeWhile, h c hc]
  rw [show datePat.tail = (⟨isSpaceChar, 1, none⟩ : Atom) :: datePat.tail.tail from rfl]
  rw [matchAtoms]
  simp [hrun, tryLens]

theorem reSearch_datePat_none (s : List Char)
    (h : ∀ c ∈ s, isSpaceChar c = false) : reSearch datePat s = none := by
  induction s with
  | nil => rw [reSearch, matchAtoms_datePat_none [] h]
  | cons c rest ih =>
    rw [reSearch, matchAtoms_datePat_none (c :: rest) h]
    exact ih (fun x hx => h x (List.mem_cons_of_mem c hx))

theorem isSpaceChar_digitCharOf (n : Nat) : isSpaceChar (digitCharOf n) = false := by
  unfold digitCharOf
  split <;> decide

theorem isoFormat_noSpace (y m d : Nat) :
    ∀ c ∈ (isoFormat y m d).data, isSpaceChar c = false := by
  intro c hc
  simp only [isoFormat, List.mem_cons, List.not_mem_nil, or_false] at hc
  rcases hc with rfl | rfl | rfl | rfl | rfl | rfl | rfl | rfl | rfl | rfl <;>
    first
      | exact isSpaceChar_digitCharOf _
      | decide

/-- Behaviour of `parse_date_standard` on every input: either it produced the
ISO form of a `datetime`-valid calendar date with the uncertain bit clear, or
it returned the stripped input with the uncertain bit set. -/
theorem parse_date_standard_spec (text : String) :
    (∃ y m d, isValidDate y m d = true ∧
      CommonParsers.parse_date_standard text = (isoFormat y m d, false))
    ∨ CommonParsers.parse_date_standard text = (pyStrip text, true) := by
  unfold CommonParsers.parse_date_standard
  split
  · right; rfl
  · split
    · right; rfl
    · split
      · rename_i h3
        left
        exact ⟨_, _, _, h3, rfl⟩
      · right; rfl

/-! ### Claim C5 -/

/-- C5: `parse_date_standard` matches a day, one of the twelve Russian month
names and a 4-digit year case-insensitively and returns the ISO form of the
valid calendar date with uncertain=false; on no match or an invalid calendar
date it returns the trimmed original text with uncertain=true; in particular
it maps the sample phrase 15 марта 2024 to ("2024-03-15", false). -/
theorem C5_thm :
    CommonParsers.parse_date_standard "15 марта 2024" = ("2024-03-15", false)
    ∧ CommonParsers.parse_date_standard "15 МАРТА 2024" = ("2024-03-15", false)
    ∧ ∀ text,
        (∃ y m d, isValidDate y m d = true ∧
          CommonParsers.parse_date_standard text = (isoFormat y m d, false))
        ∨ CommonParsers.parse_date_standard text = (pyStrip text, true) :=
  ⟨by decide, by decide, parse_date_standard_spec⟩

/-! ### Claim C6 -/

/-- C6: the standard date parser is not a no-op-safe round trip: whenever it
succeeds (uncertain=false), re-parsing its ISO output returns that output
unchanged with uncertain=true, because the ISO form contains no whitespace and
so cannot match the date pattern. -/
theorem C6_thm (text v : String)
    (h : CommonParsers.parse_date_standard text = (v, false)) :
    CommonParsers.parse_date_standard v = (v, true) := by
  rcases parse_date_standard_spec text with ⟨y, m, d, _, heq⟩ | heq
  · rw [h] at heq
    obtain ⟨rfl, -⟩ : v = isoFormat y m d ∧ False = False :=
      ⟨congrArg Prod.fst heq, rfl⟩
    unfold CommonParsers.parse_date_standard
    rw [reSearch_datePat_none _ (isoFormat_noSpace y m d)]
    rw [pyStrip_eq_self _ (isoFormat_noSpace y m d)]
  · rw [h] at heq
    exact absurd (congrArg Prod.snd heq) (by simp)

/-- Witness for C6 at a concrete success of the parser. -/
theorem C6_witness :
    CommonParsers.parse_date_standard "2024-03-15" = ("2024-03-15", true) :=
  C6_thm "15 марта 2024" "2024-03-15" (by decide)

/-! ### Claim C7 -/

/-- C7: on inputs whose digit concatenation has at least 10 digits,
`RosNouParsers.parse_series_and_number` rewrites a leading "71", "11" or "17"
to series "77" with uncertain=true regardless of the number's length, and
otherwise returns the first two digits as series with uncertain true iff the
number part is shorter than 8 characters. -/
theorem C7_thm (text : String) (h : 10 ≤ (digitsIn text).length) :
    ((String.mk ((digitsIn text).take 2) = "71" ∨
      String.mk ((digitsIn text).take 2) = "11" ∨
      String.mk ((digitsIn text).take 2) = "17") →
      (RosNouParsers.parse_series_and_number text).1 = "77" ∧
      (RosNouParsers.parse_series_and_number text).2.2 = true)
    ∧ (¬(String.mk ((digitsIn text).take 2) = "71" ∨
        String.mk ((digitsIn text).take 2) = "11" ∨
        String.mk ((digitsIn text).take 2) = "17") →
      (RosNouParsers.parse_series_and_number text).1 = String.mk ((digitsIn text).take 2) ∧
      ((RosNouParsers.parse_series_and_number text).2.2 = true ↔
        (RosNouParsers.parse_series_and_number text).2.1.length < 8)) := by
  constructor
  · intro hcorr
    have hb : (decide (String.mk ((digitsIn text).take 2) = "71") ||
        decide (String.mk ((digitsIn text).take 2) = "11") ||
        decide (String.mk ((digitsIn text).take 2) = "17")) = true := by
      rcases hcorr with h1 | h1 | h1 <;> rw [h1] <;> rfl
    simp only [RosNouParsers.parse_series_and_number, if_pos h, hb]
    simp
  · intro hcorr
    push_neg at hcorr
    have hb : (decide (String.mk ((digitsIn text).take 2) = "71") ||
        decide (String.mk ((digitsIn text).take 2) = "11") ||
        decide (String.mk ((digitsIn text).take 2) = "17")) = false := by
      rw [decide_eq_false hcorr.1, decide_eq_false hcorr.2.1, decide_eq_false hcorr.2.2]
      rfl
    simp only [RosNouParsers.parse_series_and_number, if_pos h, hb]
    simp

/-- Witness for C7 at a concrete ≥10-digit input starting with "71". -/
theorem C7_witness :
    (RosNouParsers.parse_series_and_number "712024000010").1 = "77" ∧
    (RosNouParsers.parse_series_and_number "712024000010").2.2 = true :=
  (C7_thm "712024000010" (by decide)).1 (by decide)

/-! ### Claim C9 -/

/-- C9: with exactly 10 or 11 digits the returned number is the 3rd through
10th digits (length 8) — an 11th digit is silently discarded — and for no
input at all does the returned number have length 9. -/
theorem C9_thm :
    (∀ text, ((digitsIn text).length = 10 ∨ (digitsIn text).length = 11) →
      (RosNouParsers.parse_series_and_number text).2.1 =
        String.mk (((digitsIn text).drop 2).take 8) ∧
      (RosNouParsers.parse_series_and_number text).2.1.length = 8)
    ∧ ∀ text, (RosNouParsers.parse_series_and_number text).2.1.length ≠ 9 := by
  constructor
  · intro text h
    have h10 : 10 ≤ (digitsIn text).length := by omega
    have h12 : ¬ 12 ≤ (digitsIn text).length := by omega
    simp only [RosNouParsers.parse_series_and_number, if_pos h10, if_neg h12]
    constructor
    · simp
    · simp [String.length_mk, List.length_take, List.length_drop]
      omega
  · intro text
    by_cases h10 : 10 ≤ (digitsIn text).length
    · by_cases h12 : 12 ≤ (digitsIn text).length
      · simp only [RosNouParsers.parse_series_and_number, if_pos h10, if_pos h12]
        simp [String.length_mk, List.length_take, List.length_drop]
        omega
      · simp only [RosNouParsers.parse_series_and_number, if_pos h10, if_neg h12]
        simp [String.length_mk, List.length_take, List.length_drop]
        omega
    · simp only [RosNouParsers.parse_series_and_number, if_neg h10]
      by_cases h2 : 2 < (digitsIn text).length
      · simp [h2, String.length_mk, List.length_drop]
        omega
      · simp [h2]

/-- Witness for C9 at a concrete 10-digit input. -/
theorem C9_witness :
    (RosNouParsers.parse_series_and_number "7120240000").2.1 = String.mk (((digitsIn "7120240000").drop 2).take 8) ∧
    (RosNouParsers.parse_series_and_number "7120240000").2.1.length = 8 :=
  C9_thm.1 "7120240000" (by decide)

/-! ### Claim C8 -/

/-- C8: when the corrected text does not match the 5-digits-"-Д" pattern,
`parse_reg_number_diploma` extracts the first up-to-5 digits from the original
input, zero-pads them to 5, appends "-Д" and returns uncertain=true; with no
digits it returns ("00000-Д", true); and on the sample "12345-БАС" the
correction fires and the fallback yields ("12345-Д", true). -/
theorem C8_thm :
    RosNouParsers.parse_reg_number_diploma "12345-БАС" = ("12345-Д", true)
    ∧ ∀ text,
        reSearch RosNouParsers.dipPat
          (RosNouParsers.applyOcrCorrections (rusUpper text).data).1 = none →
        RosNouParsers.parse_reg_number_diploma text =
          (if digitsIn text = [] then ("00000-Д", true)
           else (String.mk (zfill5 ((digitsIn text).take 5)) ++ "-Д", true)) := by
  constructor
  · decide
  · intro text h
    simp only [RosNouParsers.parse_reg_number_diploma, h]
    by_cases hd : digitsIn text = []
    · simp [hd]
    · rw [if_pos hd, if_neg hd]
      by_cases hlen : ((digitsIn text).take 5).length < 5
      · rw [if_pos hlen]
      · rw [if_neg hlen]
        have h5 : ((digitsIn text).take 5).length = 5 := by
          have := List.length_take 5 (digitsIn text)
          omega
        simp [zfill5, h5]

/-- Witness for C8 on an input whose corrected form has no pattern match and
fewer than five digits. -/
theorem C8_witness :
    RosNouParsers.parse_reg_number_diploma "99" = ("00099-Д", true) :=
  (C8_thm.2 "99" (by decide)).trans (by decide)

/-! ### Substring and correction-loop lemmas for C10 -/

theorem containsSub_iff (pat : List Char) (s : List Char) :
    containsSub pat s = true ↔ pat <:+: s := by
  induction s with
  | nil => simp [containsSub, List.isEmpty_iff]
  | cons c rest ih =>
    simp [containsSub, List.infix_cons_iff, ih, List.isPrefixOf_iff_prefix, or_comm]

theorem containsSub_singleton (c : Char) (l : List Char) (h : c ∈ l) :
    containsSub [c] l = true := by
  induction l with
  | nil => cases h
  | cons d rest ih =>
    rcases List.mem_cons.mp h with rfl | hm
    · simp [containsSub, List.isPrefixOf]
    · simp [containsSub, ih hm]

theorem containsSub_sub (p q u : List Char) (h : containsSub p u = true)
    (hq : q <:+: p) : containsSub q u = true :=
  (containsSub_iff q u).mpr (hq.trans ((containsSub_iff p u).mp h))

theorem correctionStep_snd (acc : List Char × Bool) (pr : List Char × List Char)
    (h : acc.2 = true) : (RosNouParsers.correctionStep acc pr).2 = true := by
  unfold RosNouParsers.correctionStep
  split <;> simp_all

theorem correctionStep_neg (acc : List Char × Bool) (pr : List Char × List Char)
    (h : containsSub pr.1 acc.1 = false) : RosNouParsers.correctionStep acc pr = acc := by
  unfold RosNouParsers.correctionStep
  simp [h]

theorem correctionStep_pos (u : List Char) (flag : Bool) (pr : List Char × List Char)
    (h : containsSub pr.1 u = true) :
    (RosNouParsers.correctionStep (u, flag) pr).2 = true := by
  unfold RosNouParsers.correctionStep
  simp [h]

theorem foldl_correctionStep_true (prs : List (List Char × List Char))
    (acc : List Char × Bool) (h : acc.2 = true) :
    (prs.foldl RosNouParsers.correctionStep acc).2 = true := by
  induction prs generalizing acc with
  | nil => exact h
  | cons p t ih => exact ih _ (correctionStep_snd _ _ h)

theorem foldl_correctionStep_fire (prs : List (List Char × List Char))
    (u : List Char) (h : ∃ pr ∈ prs, containsSub pr.1 u = true) :
    (prs.foldl RosNouParsers.correctionStep (u, false)).2 = true := by
  induction prs with
  | nil =>
    rcases h with ⟨pr, hmem, -⟩
    cases hmem
  | cons p t ih =>
    by_cases hp : containsSub p.1 u = true
    · exact foldl_correctionStep_true t _ (correctionStep_pos _ _ _ hp)
    · rw [List.foldl_cons,
        correctionStep_neg (u, false) p (Bool.not_eq_true _ |>.mp hp)]
      apply ih
      rcases h with ⟨pr, hmem, hc⟩
      rcases List.mem_cons.mp hmem with rfl | hm
      · exact absurd hc hp
      · exact ⟨pr, hm, hc⟩

/-- If the uppercased text contains АС or one of the digits 8, 4, 0, then the
OCR-correction loop of `parse_reg_number_diploma` fires at least once. -/
theorem corrections_flag (u : List Char)
    (h : containsSub "АС".data u = true ∨ '8' ∈ u ∨ '4' ∈ u ∨ '0' ∈ u) :
    (RosNouParsers.applyOcrCorrections u).2 = true := by
  unfold RosNouParsers.applyOcrCorrections
  apply foldl_correctionStep_fire
  rcases h with hx | hx | hx | hx
  · exact ⟨("АС".data, "Д".data), by simp [RosNouParsers.ocrCorrections], hx⟩
  · exact ⟨("8".data, "Д".data), by simp [RosNouParsers.ocrCorrections],
      containsSub_singleton '8' u hx⟩
  · exact ⟨("4".data, "Д".data), by simp [RosNouParsers.ocrCorrections],
      containsSub_singleton '4' u hx⟩
  · exact ⟨("0".data, "Д".data), by simp [RosNouParsers.ocrCorrections],
      containsSub_singleton '0' u hx⟩

/-! ### Claim C10 -/

/-- C10: the correction table rewrites the characters 8, 4, 0 to Д before the
exact-pattern match while the failure-path digit extraction reads the original
input, so every input containing 8, 4 or 0 (or БАС/ВАС/8АС/АС,
case-insensitively) comes back with uncertain=true — even the well-formed
"12345-Д", whose digit 4 is rewritten before matching, returns
("12345-Д", true) via the fallback path. -/
theorem C10_thm :
    RosNouParsers.parse_reg_number_diploma "12345-Д" = ("12345-Д", true)
    ∧ ∀ text,
        (containsSub "БАС".data (rusUpper text).data = true ∨
         containsSub "ВАС".data (rusUpper text).data = true ∨
         containsSub "8АС".data (rusUpper text).data = true ∨
         containsSub "АС".data (rusUpper text).data = true ∨
         '8' ∈ text.data ∨ '4' ∈ text.data ∨ '0' ∈ text.data) →
        (RosNouParsers.parse_reg_number_diploma text).2 = true := by
  constructor
  · decide
  · intro text h
    have hmem : ∀ c : Char, rusUpperChar c = c → c ∈ text.data →
        c ∈ (rusUpper text).data := by
      intro c hc hm
      simpa [rusUpper, hc] using List.mem_map_of_mem rusUpperChar hm
    have h4 : containsSub "АС".data (rusUpper text).data = true ∨
        '8' ∈ (rusUpper text).data ∨ '4' ∈ (rusUpper text).data ∨
        '0' ∈ (rusUpper text).data := by
      rcases h with hx | hx | hx | hx | hx | hx | hx
      · exact Or.inl (containsSub_sub _ _ _ hx
          ((containsSub_iff _ _).mp (by decide)))
      · exact Or.inl (containsSub_sub _ _ _ hx
          ((containsSub_iff _ _).mp (by decide)))
      · exact Or.inl (containsSub_sub _ _ _ hx
          ((containsSub_iff _ _).mp (by decide)))
      · exact Or.inl hx
      · exact Or.inr (Or.inl (hmem '8' (by decide) hx))
      · exact Or.inr (Or.inr (Or.inl (hmem '4' (by decide) hx)))
      · exact Or.inr (Or.inr (Or.inr (hmem '0' (by decide) hx)))
    have hf := corrections_flag _ h4
    unfold RosNouParsers.parse_reg_number_diploma
    cases hm : reSearch RosNouParsers.dipPat
        (RosNouParsers.applyOcrCorrections (rusUpper text).data).1 with
    | some caps => simpa [hm] using hf
    | none =>
      simp only [hm]
      split <;> rfl

/-- Witness for C10 on a concrete input containing a corrected digit. -/
theorem C10_witness : (RosNouParsers.parse_reg_number_diploma "40").2 = true :=
  C10_thm.2 "40" (Or.inr (Or.inr (Or.inr (Or.inr (Or.inr (Or.inl (by decide)))))))

/-! ### Claim C1 -/

/-- Counterexample to C1: for the unknown organization "X" with
corrections_made=false, the engine still flags a registration number whose
original text has no digits, because `config.get` falls back to the per-call
defaults (3/5/4), not to zero. -/
theorem C1_counterexample :
    UncertaintyEngine.should_flag_uncertainty "X" "registration_number" "ab"
      (.pstr "ab") false = true := by
  decide

/-- C1 (amended): an unknown organization gets the `config.get` defaults
min_reg_digits=3, min_name_length=5, min_number_length=4 — not all-zero
thresholds — so the secondary check can still flag it: for
registration_number it flags exactly when the original text has fewer than 3
digit characters, while for every field name outside the five recognized ones
it indeed never flags. -/
theorem C1_thm (org t : String) (p : PyVal)
    (h1 : org ≠ "1T") (h2 : org ≠ "ROSNOU") (h3 : org ≠ "FINUNIVERSITY") :
    (UncertaintyEngine.should_flag_uncertainty org "registration_number" t p false =
      decide ((digitsIn t).length < 3))
    ∧ ∀ f, f ≠ "registration_number" → f ≠ "full_name" →
        f ≠ "series_and_number" → f ≠ "series" → f ≠ "number" →
        UncertaintyEngine.should_flag_uncertainty org f t p false = false := by
  have hth : thresholdsFor org = none := by
    unfold thresholdsFor thresholdsTable
    rw [List.find?_eq_none.mpr]
    · rfl
    · rintro ⟨k, v⟩ hk
      simp only [List.mem_cons, List.not_mem_nil, or_false] at hk
      rcases hk with h | h | h <;>
        (injection h with hkey hval; subst hkey; simp only [decide_eq_true_eq])
      · exact fun hh => h1 hh.symm
      · exact fun hh => h2 hh.symm
      · exact fun hh => h3 hh.symm
  constructor
  · unfold UncertaintyEngine.should_flag_uncertainty
    rw [hth]
    rfl
  · intro f hf1 hf2 hf3 hf4 hf5
    unfold UncertaintyEngine.should_flag_uncertainty
    rw [hth]
    simp [hf1, hf2, hf3, hf4, hf5]

/-- Witness for C1 (amended) at the unknown organization "X". -/
theorem C1_witness :
    UncertaintyEngine.should_flag_uncertainty "X" "registration_number" "ab"
      (.pstr "") false = decide ((digitsIn "ab").length < 3)
    ∧ UncertaintyEngine.should_flag_uncertainty "X" "issue_date" "ab"
      (.pstr "") false = false :=
  ⟨(C1_thm "X" "ab" (.pstr "") (by decide) (by decide) (by decide)).1,
   (C1_thm "X" "ab" (.pstr "") (by decide) (by decide) (by decide)).2 "issue_date"
     (by decide) (by decide) (by decide) (by decide) (by decide)⟩

/-! ### Claim C2 -/

/-- Counterexample to C2: a configured composite parser returning a 2-tuple
(wrong arity, no exception) makes the orchestrator store `series = ""` and
`number = raw text`, not the regex-fallback split ("02", "123456") the claim
asserts. -/
theorem C2_counterexample :
    OCREngine.processField "1T"
      (some [("series_and_number",
        fun _ => some (.ptuple [.pstr "AB", .pbool true]))])
      "series_and_number" "02 123456" =
      [("series", .pstr ""), ("number", .pstr "02 123456"),
       ("uncertain_series", .pbool true), ("uncertain_number", .pbool true)]
    ∧ OCREngine.parse_series_number_fallback "02 123456" = ("02", "123456")
    ∧ ("" : String) ≠ "02" :=
  ⟨rfl, by decide, by decide⟩

/-- C2 (amended): in the composite branch a sized result of the wrong arity (a
tuple or string whose length is not 3) yields `series = ""`,
`number = raw text`, both marked uncertain; the deterministic regex fallback
runs only when the parser raises (which includes the `len()` TypeError on an
unsized result), likewise marking both uncertain. -/
theorem C2_thm :
    (∀ (org raw : String) (parser : PyParser) (v : PyVal),
      pyStrip raw ≠ "" →
      parser raw = some v →
      ((∃ s, v = .pstr s ∧ s.length ≠ 3) ∨ (∃ l, v = .ptuple l ∧ l.length ≠ 3)) →
      OCREngine.processField org (some [("series_and_number", parser)])
        "series_and_number" raw = OCREngine.malformedCompositeEntries raw)
    ∧ ∀ (org raw : String) (parser : PyParser),
      pyStrip raw ≠ "" →
      parser raw = none →
      OCREngine.processField org (some [("series_and_number", parser)])
        "series_and_number" raw = OCREngine.fallbackEntries raw := by
  constructor
  · intro org raw parser v h1 h2 h3
    unfold OCREngine.processField
    rw [if_neg h1, if_pos rfl]
    have hl : OCREngine.lookupParser (some [("series_and_number", parser)])
        "series_and_number" = some parser := by
      simp [OCREngine.lookupParser]
    simp only [hl, h2]
    rcases h3 with ⟨s, rfl, hs⟩ | ⟨l, rfl, hl3⟩
    · simp [hs]
    · simp [hl3]
  · intro org raw parser h1 h2
    unfold OCREngine.processField
    rw [if_neg h1, if_pos rfl]
    have hl : OCREngine.lookupParser (some [("series_and_number", parser)])
        "series_and_number" = some parser := by
      simp [OCREngine.lookupParser]
    simp only [hl, h2]

/-- Witness for C2 (amended) at concrete malformed and raising parsers. -/
theorem C2_witness :
    OCREngine.processField "1T" (some [("series_and_number",
        fun _ => some (.ptuple []))]) "series_and_number" "ab" =
      OCREngine.malformedCompositeEntries "ab"
    ∧ OCREngine.processField "1T" (some [("series_and_number", fun _ => none)])
        "series_and_number" "ab" = OCREngine.fallbackEntries "ab" :=
  ⟨C2_thm.1 "1T" "ab" _ (.ptuple []) (by decide) rfl (Or.inr ⟨[], rfl, by decide⟩),
   C2_thm.2 "1T" "ab" _ (by decide) rfl⟩

/-! ### Claim C3 -/

/-- Counterexample to C3: a configured simple-field parser returning the
integer 7 (not a 2-tuple, no exception) stores `str(7) = "7"`, not the raw
OCR text "hello" the claim asserts. -/
theorem C3_counterexample :
    OCREngine.processField "1T" (some [("issue_date", fun _ => some (.pint 7))])
      "issue_date" "hello" =
      [("issue_date", .pstr "7"), ("uncertain_issue_date", .pbool true)]
    ∧ ("7" : String) ≠ "hello" :=
  ⟨rfl, by decide⟩

/-- C3 (amended): in the simple-field branch a non-raising result that is not
a 2-tuple is stored as `str(parsed_result)` — not as the raw OCR text — with
the uncertain flag set; the raw text verbatim is used only for a raised
exception or a missing parser. -/
theorem C3_thm (org field raw : String) (parser : PyParser) (v : PyVal)
    (h1 : pyStrip raw ≠ "") (h2 : field ≠ "series_and_number")
    (h3 : parser raw = some v) (h4 : ∀ l, v = .ptuple l → l.length ≠ 2) :
    OCREngine.processField org (some [(field, parser)]) field raw =
      [(field, .pstr (pyStr v)), ("uncertain_" ++ field, .pbool true)] := by
  unfold OCREngine.processField
  rw [if_neg h1, if_neg h2]
  have hl : OCREngine.lookupParser (some [(field, parser)]) field = some parser := by
    simp [OCREngine.lookupParser]
  simp only [hl, h3]
  cases v with
  | ptuple l => simp [h4 l rfl]
  | pstr s => rfl
  | pbool b => rfl
  | pint n => rfl

/-- Witness for C3 (amended) at a concrete non-tuple parser result. -/
theorem C3_witness :
    OCREngine.processField "1T" (some [("full_name", fun _ => some (.pbool true))])
      "full_name" "hello" =
      [("full_name", .pstr (pyStr (.pbool true))), ("uncertain_full_name", .pbool true)] :=
  C3_thm "1T" "full_name" "hello" _ (.pbool true) (by decide) (by decide) rfl
    (fun l h => by cases h)

/-! ### Key-coverage lemmas for C4 -/

theorem hasKey_append_left (res1 res2 : List (String × PyVal)) (k : String)
    (h : OCREngine.hasKey res1 k) : OCREngine.hasKey (res1 ++ res2) k := by
  simp only [OCREngine.hasKey, List.map_append, List.mem_append]
  exact Or.inl h

theorem hasKey_append_right (res1 res2 : List (String × PyVal)) (k : String)
    (h : OCREngine.hasKey res2 k) : OCREngine.hasKey (res1 ++ res2) k := by
  simp only [OCREngine.hasKey, List.map_append, List.mem_append]
  exact Or.inr h

/-- Every branch of the per-field step emits its field's keys: the composite
field always contributes `series` and `number`, every other field contributes
its own name. -/
theorem processField_hasKeys (org : String)
    (pats : Option (List (String × PyParser))) (field raw : String) :
    (field = "series_and_number" →
      OCREngine.hasKey (OCREngine.processField org pats field raw) "series" ∧
      OCREngine.hasKey (OCREngine.processField org pats field raw) "number")
    ∧ (field ≠ "series_and_number" →
      OCREngine.hasKey (OCREngine.processField org pats field raw) field) := by
  constructor
  · rintro rfl
    unfold OCREngine.processField
    constructor <;>
      (repeat' split) <;>
        simp_all [OCREngine.hasKey, OCREngine.emptyCompositeEntries,
          OCREngine.fallbackEntries, OCREngine.malformedCompositeEntries,
          OCREngine.compositeOkEntries, OCREngine.simpleOkEntries]
  · intro hf
    unfold OCREngine.processField
    by_cases hempty : pyStrip raw = ""
    · rw [if_pos hempty, if_neg hf]
      simp [OCREngine.hasKey]
    · rw [if_neg hempty, if_neg hf]
      (repeat' split) <;>
        simp_all [OCREngine.hasKey, OCREngine.simpleOkEntries]

theorem hasKey_foldl (org : String) (pats : Option (List (String × PyParser)))
    (ocr : String → String) (l : List String) (acc : List (String × PyVal))
    (k : String) (h : OCREngine.hasKey acc k) :
    OCREngine.hasKey
      (l.foldl (fun r f => r ++ OCREngine.processField org pats f (ocr f)) acc) k := by
  induction l generalizing acc with
  | nil => exact h
  | cons f t ih => exact ih _ (hasKey_append_left _ _ _ h)

theorem hasKey_foldl_of_mem (org : String)
    (pats : Option (List (String × PyParser))) (ocr : String → String)
    (f k : String)
    (hk : OCREngine.hasKey (OCREngine.processField org pats f (ocr f)) k) :
    ∀ (l : List String) (acc : List (String × PyVal)), f ∈ l →
      OCREngine.hasKey
        (l.foldl (fun r g => r ++ OCREngine.processField org pats g (ocr g)) acc) k := by
  intro l
  induction l with
  | nil => intro acc hf; cases hf
  | cons g t ih =>
    intro acc hf
    rcases List.mem_cons.mp hf with rfl | hm
    · exact hasKey_foldl org pats ocr t _ k (hasKey_append_right _ _ _ hk)
    · exact ih _ hm

/-! ### Claim C4 -/

/-- C4: per-field processing is total (the embedding models every raising
operation — a parser exception and the `len()` TypeError — explicitly, and
`processDocumentWithParser` is a total function on all of them), the result
map has an entry for every configured field, with `series_and_number` always
expanded into `series` and `number`; and empty trimmed raw text yields
empty-string values with the uncertain flags set. -/
theorem C4_thm :
    (∀ (config : OCREngine.DocumentConfig) (ocr : String → String),
      ∀ f ∈ config.fields,
        (f = "series_and_number" →
          OCREngine.hasKey (OCREngine.processDocumentWithParser ocr config) "series" ∧
          OCREngine.hasKey (OCREngine.processDocumentWithParser ocr config) "number")
        ∧ (f ≠ "series_and_number" →
          OCREngine.hasKey (OCREngine.processDocumentWithParser ocr config) f))
    ∧ ∀ (org : String) (pats : Option (List (String × PyParser))) (f raw : String),
        pyStrip raw = "" →
        OCREngine.processField org pats f raw =
          if f = "series_and_number" then OCREngine.emptyCompositeEntries
          else [(f, .pstr ""), ("uncertain_" ++ f, .pbool true)] := by
  constructor
  · intro config ocr f hf
    constructor
    · rintro rfl
      unfold OCREngine.processDocumentWithParser
      exact ⟨hasKey_foldl_of_mem _ _ _ _ _
          ((processField_hasKeys _ _ _ _).1 rfl).1 _ _ hf,
        hasKey_foldl_of_mem _ _ _ _ _
          ((processField_hasKeys _ _ _ _).1 rfl).2 _ _ hf⟩
    · intro hne
      unfold OCREngine.processDocumentWithParser
      exact hasKey_foldl_of_mem _ _ _ _ _
        ((processField_hasKeys _ _ _ _).2 hne) _ _ hf
  · intro org pats f raw h
    unfold OCREngine.processField
    rw [if_pos h]

/-- Witness for C4 on a concrete two-field configuration and on empty raw
text. -/
theorem C4_witness :
    OCREngine.hasKey
      (OCREngine.processDocumentWithParser (fun _ => "txt")
        ⟨"cfg", "1T", "diploma", ["full_name", "series_and_number"], none⟩)
      "full_name"
    ∧ OCREngine.hasKey
      (OCREngine.processDocumentWithParser (fun _ => "txt")
        ⟨"cfg", "1T", "diploma", ["full_name", "series_and_number"], none⟩)
      "series"
    ∧ OCREngine.processField "1T" none "issue_date" " " =
        [("issue_date", .pstr ""), ("uncertain_issue_date", .pbool true)] :=
  ⟨(C4_thm.1 ⟨"cfg", "1T", "diploma", ["full_name", "series_and_number"], none⟩
      (fun _ => "txt") "full_name" (by decide)).2 (by decide),
   ((C4_thm.1 ⟨"cfg", "1T", "diploma", ["full_name", "series_and_number"], none⟩
      (fun _ => "txt") "series_and_number" (by decide)).1 rfl).1,
   (C4_thm.2 "1T" none "issue_date" " " (by decide)).trans rfl⟩
